import Mathlib

/-!
Verification of the peanut template/evaluation core against its specification.

The Rust sources (`src/template.rs`, `src/template/leaf.rs`,
`src/template/leaf/ops.rs`) are shallowly embedded below:

* `HashMap<NodeId, (Node, String)>` becomes an association list whose
  `insert` conses a new binding in front (lookup sees the newest binding,
  matching `HashMap::insert` overwrite semantics).
* `&mut self` methods become state-passing functions returning the new
  `Template` next to their result.
* The recursive evaluator and the path resolver are given an explicit fuel
  parameter; the constructor `EvalOutcome.fuelOut` (resp. a `none` result of
  the resolver) marks runs that exceed the fuel.  A result that is `fuelOut`
  for every fuel corresponds to nontermination of the Rust code.
* Rust panics (`unreachable!`, integer division by zero, `Option::unwrap`
  on `None`) are modelled by the distinguished outcome `EvalOutcome.panic`.
* `isize` (64-bit) arithmetic is modelled on `Int`; the binary operations
  reduce their result with `wrap64` (two's-complement wrap-around, the
  release-profile overflow behavior of Rust).
-/

namespace Peanut

/-- A Node ID, used for referencing nodes (`type NodeId = usize`). -/
abbrev NodeId := Nat

/-- Types of operations (`enum OpKind` in `leaf.rs`). -/
inductive OpKind where
  | Add
  | Sub
  | Mul
  | Div
  | Pow
  | Neg
  deriving DecidableEq

/-- Constraint payloads (`enum Constraint` in `template.rs`). -/
inductive Constraint where
  | GreaterThan (n : Int)
  | GreaterOrEqual (n : Int)
  | LessThan (n : Int)
  | LessOrEqual (n : Int)
  | Equal (n : Int)
  deriving DecidableEq

mutual
/-- A single value contained within a leaf node (`enum Value` in `leaf.rs`).
`List` holds expressions, exactly as `Value::List(Vec<Expr>)` does. -/
inductive Value where
  | Integer (i : Int)
  | String (s : String)
  | List (elems : List Expr)

/-- An expression to be evaluated (`enum Expr` in `leaf.rs`).  The boxed
struct `InfixOp { lhs, rhs, kind }` is inlined into the constructor. -/
inductive Expr where
  | Literal (v : Value)
  | Reference (id : NodeId)
  | IdentRef (id : NodeId)
  | InfixOp (lhs rhs : Expr) (kind : OpKind)
end

/-- Empty values for type resolution (`enum ValueKind` in `leaf.rs`). -/
inductive ValueKind where
  | Undefined
  | Integer
  | String
  | List
  deriving DecidableEq

/-- The `From<&Value> for ValueKind` impl in `leaf.rs`. -/
def valueKindOf : Value → ValueKind
  | .Integer _ => .Integer
  | .String _ => .String
  | .List _ => .List

/-- Metadata payloads (`enum Metadata` in `template.rs`). -/
inductive Metadata where
  | Common (inner : NodeId)
  | Sum (elems : List Int)
  | Ident
  | Concat (elems : List Expr)
  | Constraint (c : Constraint)

/-- Creation tags for metadata (`enum MetadataStart` in `template.rs`). -/
inductive MetadataStart where
  | Common
  | Sum
  | Ident
  | Concat
  | Constraint (c : Constraint)

/-- A node with a single value (`struct Leaf` in `template.rs`). -/
structure Leaf where
  id : NodeId
  value_kind : ValueKind
  value : Option Expr
  cached : Option Value
  cache_valid : Bool
  deferred : Bool
  parent : Option NodeId
  metadata : List NodeId
  dependencies : List NodeId
  dependents : List NodeId

/-- A node that can contain other nodes (`struct Group` in `template.rs`). -/
structure Group where
  id : NodeId
  children : List NodeId
  parent : Option NodeId
  metadata : List NodeId
  common : Option NodeId

/-- A special-purpose node (`struct Meta` in `template.rs`). -/
structure Meta where
  id : NodeId
  parent : NodeId
  data : Metadata
  cached : Option Value
  cache_valid : Bool

/-- A generic node (`enum Node` in `template.rs`). -/
inductive Node where
  | Leaf (l : Leaf)
  | Group (g : Group)
  | Meta (m : Meta)

/-- Errors of the add operations (`enum AddNodeError`). -/
inductive AddNodeError where
  | ParentNotExists
  | ParentIsLeaf
  | InvalidParent
  | NameConflict
  | InvalidName
  deriving DecidableEq

/-- Errors of the leaf editing operations (`enum EditLeafError`). -/
inductive EditLeafError where
  | NotExists
  | NotLeaf
  deriving DecidableEq

/-- Errors of the evaluator (`enum EvalError`). -/
inductive EvalError where
  | NotALeaf (id : NodeId)
  | InfiniteRecursion (id : NodeId)
  | MissingInfo (id : NodeId)
  | MissingDependency (id : NodeId)
  | MissingPathDependency (path : String)
  | InvalidIdentRef (id : NodeId)
  | InvalidType
  | MetaType (id : NodeId)
  | MissingParent (id : NodeId)

/-- The whole template (`struct Template`): node arena plus identity
counter.  The `HashMap` is modelled as an association list where a fresh
binding shadows older ones. -/
structure Template where
  nodes : List (NodeId × (Node × String))
  next_id : NodeId

/-- `HashMap::get`: the newest binding for `id`. -/
def Template.find (t : Template) (id : NodeId) : Option (Node × String) :=
  t.nodes.findSome? (fun p => if p.1 = id then some p.2 else none)

/-- `HashMap::insert` (overwrite semantics via shadowing). -/
def Template.setNode (t : Template) (id : NodeId) (v : Node × String) : Template :=
  { t with nodes := (id, v) :: t.nodes }

/-- `Template::new`: a store holding only the root group, id `0`. -/
def Template.new : Template :=
  { nodes := [(0, (Node.Group { id := 0, children := [], parent := none, metadata := [], common := none }, "[THE MOTHER]"))],
    next_id := 1 }

/-- `Template::new_id`: hand out `next_id` and increment it. -/
def new_id (t : Template) : NodeId × Template :=
  (t.next_id, { t with next_id := t.next_id + 1 })

/-- Splits a character list at the first `'.'`, mirroring Rust
`str::split_once('.')` working on the text of the path. -/
def splitOnceAux : List Char → Option (List Char × List Char)
  | [] => none
  | c :: rest =>
    if c = '.' then some ([], rest)
    else match splitOnceAux rest with
      | none => none
      | some (pre, post) => some (c :: pre, post)

/-- Rust `path.split_once(".")`. -/
def splitOnce (s : String) : Option (String × String) :=
  match splitOnceAux s.data with
  | none => none
  | some (pre, post) => some (⟨pre⟩, ⟨post⟩)

/-- `Template::verify_name`: a name is valid iff it has no `'.'`. -/
def verify_name (name : String) : Bool :=
  !(name.data.contains '.')

/-- The closure `finder` in `Template::get_node_from`: the first id among
`ids` whose node exists and is named `name` (missing ids are skipped,
matching the `?` inside the Rust closure). -/
def findChild (t : Template) (ids : List NodeId) (name : String) : Option NodeId :=
  ids.findSome? (fun cid =>
    match t.find cid with
    | none => none
    | some (_, nm) => if nm = name then some cid else none)

/-- `Template::get_node_from`, fuelled.  `none` is fuel exhaustion (the Rust
recursion did not finish within `fuel` nested calls); `some r` means the
Rust function returns `r`.  Note the faithful quirk: after `split_once`
rebinds `path` to the rest, the `Common` branch forwards that rest, so a
non-final segment is dropped when descending through a Common meta. -/
def get_node_from (t : Template) : Nat → String → NodeId → Option (Option NodeId)
  | 0, _, _ => none
  | fuel+1, path, parent =>
    let (name, rest, last) :=
      match splitOnce path with
      | some (n, r) => (n, r, false)
      | none => (path, path, true)
    match t.find parent with
    | none => some none
    | some (Node.Group g, _) =>
      match findChild t (g.children ++ g.metadata) name with
      | none => some none
      | some id => if last then some (some id) else get_node_from t fuel rest id
    | some (Node.Leaf l, _) =>
      match findChild t l.metadata name with
      | none => some none
      | some id => if last then some (some id) else get_node_from t fuel rest id
    | some (Node.Meta m, _) =>
      match m.data with
      | Metadata.Common inner => get_node_from t fuel rest inner
      | _ => some none

/-- `Template::add_child`: link `id` under `parent` (Group children list, or
the metadata list of a Common meta's inner group). -/
def add_child (t : Template) (parent : NodeId) (id : NodeId) :
    Except AddNodeError Unit × Template :=
  match t.find parent with
  | none => (.error .ParentNotExists, t)
  | some (Node.Group g, nm) =>
    (.ok (), t.setNode parent (Node.Group { g with children := g.children ++ [id] }, nm))
  | some (Node.Leaf _, _) => (.error .ParentIsLeaf, t)
  | some (Node.Meta m, _) =>
    match m.data with
    | Metadata.Common inner =>
      match t.find inner with
      | some (Node.Group g, nm) =>
        (.ok (), t.setNode inner (Node.Group { g with metadata := g.metadata ++ [id] }, nm))
      | _ => (.error .InvalidParent, t)
    | _ => (.error .ParentIsLeaf, t)

/-- `Template::add_leaf_to`.  The outer `Option` is fuel exhaustion of the
name-conflict resolution; `some (r, t')` is the Rust result and post-state.
Note `new_id` has already run when `add_child` fails. -/
def add_leaf_to (t : Template) (fuel : Nat) (name : String) (parent : NodeId)
    (deferred : Bool) : Option (Except AddNodeError NodeId × Template) :=
  match get_node_from t fuel name parent with
  | none => none
  | some (some _) => some (.error .NameConflict, t)
  | some none =>
    if !verify_name name then some (.error .InvalidName, t)
    else
      let (id, t1) := new_id t
      match add_child t1 parent id with
      | (.error e, t2) => some (.error e, t2)
      | (.ok _, t2) =>
        some (.ok id, t2.setNode id
          (Node.Leaf { id := id, value_kind := .Undefined, value := none, cached := none,
                       cache_valid := false, deferred := deferred, parent := some parent,
                       metadata := [], dependencies := [], dependents := [] }, name))

/-- `Template::add_group_to`.  Only this add operation rejects the reserved
sentinel name. -/
def add_group_to (t : Template) (fuel : Nat) (name : String) (parent : NodeId) :
    Option (Except AddNodeError NodeId × Template) :=
  match get_node_from t fuel name parent with
  | none => none
  | some (some _) => some (.error .NameConflict, t)
  | some none =>
    if !verify_name name || name == "[COMMON INNER]" then some (.error .InvalidName, t)
    else
      let (id, t1) := new_id t
      match add_child t1 parent id with
      | (.error e, t2) => some (.error e, t2)
      | (.ok _, t2) =>
        some (.ok id, t2.setNode id
          (Node.Group { id := id, children := [], parent := some parent,
                        metadata := [], common := none }, name))

/-- Tail of `Template::add_meta_to`: insert the new meta node and, when a
Common was created, its synthetic inner group. -/
def add_meta_finish (t : Template) (id : NodeId) (parentField : NodeId)
    (data : Metadata) (innerGroup : Option Group) (name : String) :
    Option (Except AddNodeError NodeId × Template) :=
  let t4 := t.setNode id
    (Node.Meta { id := id, parent := parentField, data := data,
                 cached := none, cache_valid := false }, name)
  let t5 :=
    match innerGroup with
    | some ig => t4.setNode ig.id (Node.Group ig, "[COMMON INNER]")
    | none => t4
  some (.ok id, t5)

/-- The `match start` step at the head of `Template::add_meta_to`: build
the metadata payload, allocate the synthetic inner group for a Common, and
validate the Common-specific structural rules. -/
def add_meta_start (t : Template) (parent_id : NodeId) :
    MetadataStart → Except AddNodeError ((Metadata × Option Group) × Template)
  | MetadataStart.Common =>
    (match t.find parent_id with
     | some (Node.Group pg, _) =>
       if pg.common.isSome then Except.error AddNodeError.InvalidParent
       else
         let (gid, t1) := new_id t
         Except.ok ((Metadata.Common gid,
           some ({ id := gid, children := [], parent := some parent_id,
                   metadata := [], common := none } : Group)), t1)
     | _ => Except.error AddNodeError.InvalidParent)
  | MetadataStart.Sum => .ok ((Metadata.Sum [], none), t)
  | MetadataStart.Ident => .ok ((Metadata.Ident, none), t)
  | MetadataStart.Concat => .ok ((Metadata.Concat [], none), t)
  | MetadataStart.Constraint c => .ok ((Metadata.Constraint c, none), t)

/-- The linking part of `Template::add_meta_to` after the `start` step: the
`self.nodes.get_mut(&parent_id)` match that pushes the new id onto the
parent's metadata list and computes the (rebound) `parent_id` stored in the
meta — the fresh `id` itself for Group/Leaf parents, the inner-group id for
a Common meta parent. -/
def add_meta_post (t1 : Template) (name : String) (parent_id : NodeId)
    (data : Metadata) (innerGroup : Option Group) :
    Option (Except AddNodeError NodeId × Template) :=
  let (id, t2) := new_id t1
  match t2.find parent_id with
  | none => some (.error .ParentNotExists, t2)
  | some (Node.Group g, nm) =>
    let t3 := t2.setNode parent_id (Node.Group { g with metadata := g.metadata ++ [id] }, nm)
    add_meta_finish t3 id id data innerGroup name
  | some (Node.Leaf l, nm) =>
    let t3 := t2.setNode parent_id (Node.Leaf { l with metadata := l.metadata ++ [id] }, nm)
    add_meta_finish t3 id id data innerGroup name
  | some (Node.Meta pm, _) =>
    match pm.data with
    | Metadata.Common gid =>
      (match t2.find gid with
       | some (Node.Group g2, nm2) =>
         let t3 := t2.setNode gid (Node.Group { g2 with metadata := g2.metadata ++ [id] }, nm2)
         add_meta_finish t3 id gid data innerGroup name
       | _ => some (.error .InvalidParent, t2))
    | _ => some (.error .ParentIsLeaf, t2)

/-- `Template::add_meta_to`.  Faithful points: the `parent` field stored in
the new meta is the value the Rust `match` yields (see `add_meta_post`),
and the sentinel name is not checked here. -/
def add_meta_to (t : Template) (fuel : Nat) (name : String) (parent_id : NodeId)
    (start : MetadataStart) : Option (Except AddNodeError NodeId × Template) :=
  match get_node_from t fuel name parent_id with
  | none => none
  | some (some _) => some (.error .NameConflict, t)
  | some none =>
    if !verify_name name then some (.error .InvalidName, t)
    else
      match add_meta_start t parent_id start with
      | .error e => some (.error e, t)
      | .ok ((data, innerGroup), t1) => add_meta_post t1 name parent_id data innerGroup

/-- `Template::check_expr_type`. -/
def check_expr_type (t : Template) : Expr → ValueKind
  | .Literal v => valueKindOf v
  | .Reference id =>
    match t.find id with
    | some (Node.Leaf l, _) => l.value_kind
    | _ => .Undefined
  | .IdentRef _ => .String
  | .InfixOp _ _ _ => .Integer

/-- `Template::set_leaf_value`: store `Literal v`, refresh `value_kind`,
touch nothing else (in particular not the cache fields). -/
def set_leaf_value (t : Template) (id : NodeId) (v : Value) :
    Except EditLeafError Unit × Template :=
  match t.find id with
  | none => (.error .NotExists, t)
  | some (Node.Leaf l, nm) =>
    (.ok (), t.setNode id
      (Node.Leaf { l with value_kind := valueKindOf v, value := some (.Literal v) }, nm))
  | some _ => (.error .NotLeaf, t)

/-- `Template::set_leaf_expr`: store the expression, refresh `value_kind`,
touch nothing else (in particular not the cache fields). -/
def set_leaf_expr (t : Template) (id : NodeId) (e : Expr) :
    Except EditLeafError Unit × Template :=
  let vk := check_expr_type t e
  match t.find id with
  | none => (.error .NotExists, t)
  | some (Node.Leaf l, nm) =>
    (.ok (), t.setNode id (Node.Leaf { l with value_kind := vk, value := some e }, nm))
  | some _ => (.error .NotLeaf, t)

/-- Two's-complement wrap-around into the `i64` range, the release-profile
behavior of Rust `isize` arithmetic. -/
def wrap64 (x : Int) : Int := (x + 2 ^ 63) % 2 ^ 64 - 2 ^ 63

/-- Outcome of one evaluator run.  `ok`/`err` are the Rust `Result` sides;
`panic` is a Rust panic; `fuelOut` marks runs exceeding the model fuel (a
result that is `fuelOut` at every fuel is a nonterminating Rust run). -/
inductive EvalOutcome where
  | ok (v : Value)
  | err (e : EvalError)
  | panic
  | fuelOut

/-- `enum EvalMetaStatus`, extended with the `panic`/`fuelOut` channels of
the model. -/
inductive EvalMetaStatus where
  | Success (v : Value)
  | Ident
  | WrongType
  | InvalidConcatElement
  | InternalEvalError (e : EvalError)
  | Panic
  | FuelOut

/-- Outcome of the parent walk of the `__ident` meta evaluation. -/
inductive WalkOutcome where
  | found (name : String)
  | err (e : EvalError)
  | panic
  | fuelOut

/-- The `loop` in `eval_leaf_inner` for `EvalMetaStatus::Ident`: walk parent
links, skipping Meta nodes and the `"[COMMON INNER]"` sentinel group (whose
`parent` is unwrapped — a panic when `None`), until a Leaf or an ordinarily
named Group is reached. -/
def identWalk (t : Template) : Nat → (Node × String) → WalkOutcome
  | 0, _ => .fuelOut
  | fuel+1, cur =>
    match cur with
    | (Node.Meta inner, _) =>
      (match t.find inner.parent with
       | none => .err (.MissingParent inner.id)
       | some next => identWalk t fuel next)
    | (Node.Group g, nm) =>
      if nm == "[COMMON INNER]" then
        match g.parent with
        | none => .panic
        | some p =>
          match t.find p with
          | none => .err (.MissingParent g.id)
          | some next => identWalk t fuel next
      else .found nm
    | (Node.Leaf _, nm) => .found nm

/-- The tail of `eval_leaf_inner`: push `(id, out)` onto the updates vector
when the evaluation produced a value, else pass the outcome through. -/
def pushOnOk (id : NodeId) (out : EvalOutcome) (ups : List (NodeId × Value)) :
    EvalOutcome × List (NodeId × Value) :=
  match out with
  | .ok v => (.ok v, ups ++ [(id, v)])
  | o => (o, ups)

/-- Rust `Vec<String>::concat`. -/
def strConcat (parts : List String) : String := ⟨(parts.map String.data).flatten⟩

/-- The element loop of `Template::concat_meta`, with the accumulated
string parts; stops early exactly where the Rust `for` loop returns. -/
def concatGo (evalE : Expr → EvalOutcome) : List Expr → List String → EvalMetaStatus
  | [], acc => .Success (.String (strConcat acc))
  | e :: rest, acc =>
    match evalE e with
    | .ok (.String s) => concatGo evalE rest (acc ++ [s])
    | .ok _ => .InvalidConcatElement
    | .err er => .InternalEvalError er
    | .panic => .Panic
    | .fuelOut => .FuelOut

mutual

/-- `Template::eval_leaf_inner`.  `checked` is the visited vector the Rust
code threads by `&mut` — faithfully, nothing is ever pushed onto it, so it
is a plain parameter here.  `ups` is the `updates` vector; the pair returned
is (outcome, final updates vector). -/
def evalLeafInner (t : Template) : Nat → NodeId → List NodeId → List (NodeId × Value) →
    EvalOutcome × List (NodeId × Value)
  | 0, _, _, ups => (.fuelOut, ups)
  | fuel+1, id, checked, ups =>
    if checked.contains id then (.err (.InfiniteRecursion id), ups)
    else
      match t.find id with
      | none => (.err (.MissingDependency id), ups)
      | some (Node.Leaf leaf, _) =>
        (match leaf.cache_valid, leaf.cached with
         | true, some c => (.ok c, ups)
         | _, _ =>
           match leaf.value with
           | some e => pushOnOk id (evalExprInner t fuel e checked) ups
           | none => (.err (.MissingInfo id), ups))
      | some (Node.Group _, _) => (.err (.NotALeaf id), ups)
      | some (Node.Meta meta, _) =>
        (match meta.cache_valid, meta.cached with
         | true, some c => (.ok c, ups)
         | _, _ =>
           match evalMetaInner t fuel meta.data checked with
           | .Success v => pushOnOk id (.ok v) ups
           | .Ident =>
             (match t.find meta.parent with
              | none => (.err (.MissingParent meta.id), ups)
              | some start =>
                match identWalk t fuel start with
                | .found nm => pushOnOk id (.ok (.String nm)) ups
                | .err e => (.err e, ups)
                | .panic => (.panic, ups)
                | .fuelOut => (.fuelOut, ups))
           | .WrongType => (.err (.MetaType id), ups)
           | .InvalidConcatElement => (.err .InvalidType, ups)
           | .InternalEvalError e => (.err e, ups)
           | .Panic => (.panic, ups)
           | .FuelOut => (.fuelOut, ups))
termination_by structural fuel => fuel

/-- `Template::eval_expr_inner`.  Note the faithful detail that the
recursive `eval_leaf_inner` calls receive `&mut Vec::new()` as their
updates vector, which is then discarded. -/
def evalExprInner (t : Template) : Nat → Expr → List NodeId → EvalOutcome
  | 0, _, _ => .fuelOut
  | fuel+1, e, checked =>
    match e with
    | .Literal v => .ok v
    | .Reference rid => (evalLeafInner t fuel rid checked []).1
    | .IdentRef rid =>
      (match (evalLeafInner t fuel rid checked []).1 with
       | .ok (.String nm) =>
         (match get_node_from t fuel nm 0 with
          | none => .fuelOut
          | some none => .err (.MissingPathDependency nm)
          | some (some refId) => (evalLeafInner t fuel refId checked []).1)
       | .ok _ => .err (.InvalidIdentRef rid)
       | o => o)
    | .InfixOp lhs rhs kind => infixEval t fuel lhs rhs kind
termination_by structural fuel => fuel

/-- `InfixOp::eval` (in `leaf/ops.rs`).  Operands are evaluated through
`Template::eval_expr`, i.e. with a fresh empty visited vector.  `Div` by
zero and overflowing `Div` panic (Rust `/`); `Pow` multiplies; `Neg` hits
the `unreachable!` branch before touching the operands. -/
def infixEval (t : Template) : Nat → Expr → Expr → OpKind → EvalOutcome
  | 0, _, _, _ => .fuelOut
  | fuel+1, lhs, rhs, kind =>
    match kind with
    | .Neg => .panic
    | _ =>
      match evalExprInner t fuel lhs [] with
      | .ok lv =>
        (match evalExprInner t fuel rhs [] with
         | .ok rv =>
           (match lv, rv with
            | .Integer a, .Integer b =>
              (match kind with
               | .Add => .ok (.Integer (wrap64 (a + b)))
               | .Sub => .ok (.Integer (wrap64 (a - b)))
               | .Div =>
                 if b = 0 then .panic
                 else if a = -(2 ^ 63) ∧ b = -1 then .panic
                 else .ok (.Integer (Int.tdiv a b))
               | .Mul => .ok (.Integer (wrap64 (a * b)))
               | .Pow => .ok (.Integer (wrap64 (a * b)))
               | .Neg => .panic)
            | _, _ => .err .InvalidType)
         | o => o)
      | o => o
termination_by structural fuel => fuel

/-- `Template::eval_meta_inner`. -/
def evalMetaInner (t : Template) : Nat → Metadata → List NodeId → EvalMetaStatus
  | 0, _, _ => .FuelOut
  | fuel+1, md, checked =>
    match md with
    | .Common _ => .WrongType
    | .Sum elems => .Success (.Integer (wrap64 (elems.foldl (· + ·) 0)))
    | .Ident => .Ident
    | .Concat elems => concatGo (fun e => evalExprInner t fuel e checked) elems []
    | .Constraint _ => .WrongType
termination_by structural fuel => fuel

end

/-- The `if let Some(leaf) = self.get_mut_leaf_by_id(id)` cache-update blocks
of `Template::eval_leaf`: set `cached`/`cache_valid` when `id` is a Leaf,
do nothing otherwise. -/
def cacheWrite (t : Template) (id : NodeId) (v : Value) : Template :=
  match t.find id with
  | some (Node.Leaf l, nm) =>
    t.setNode id (Node.Leaf { l with cached := some v, cache_valid := true }, nm)
  | _ => t

/-- `Template::eval_leaf`: run the inner evaluation, then on success write
the result into the cache of the requested node (when it is a Leaf) and of
every entry of the updates vector (when a Leaf). -/
def eval_leaf (t : Template) (fuel : Nat) (id : NodeId) : EvalOutcome × Template :=
  match evalLeafInner t fuel id [] [] with
  | (.ok v, ups) =>
    let t1 := cacheWrite t id v
    let t2 := ups.foldl (fun acc p => cacheWrite acc p.1 p.2) t1
    (.ok v, t2)
  | (o, _) => (o, t)

/-- `Template::eval_expr` (public entry): fresh visited vector. -/
def eval_expr (t : Template) (fuel : Nat) (e : Expr) : EvalOutcome :=
  evalExprInner t fuel e []

/-- Post-state extractor for chaining add operations in concrete test
stores (defaults to the fresh store; never hit on the chains below). -/
def stepT (r : Option (Except AddNodeError NodeId × Template)) : Template :=
  match r with
  | some (_, t) => t
  | none => Template.new

/-- Reads the `cached` field of a Leaf lookup result. -/
def cached_of : Option (Node × String) → Option (Option Value)
  | some (Node.Leaf l, _) => some l.cached
  | _ => none

/-- Reads the `cache_valid` field of a Leaf lookup result. -/
def cache_valid_of : Option (Node × String) → Option Bool
  | some (Node.Leaf l, _) => some l.cache_valid
  | _ => none

/-- Reads the `value` field of a Leaf lookup result. -/
def value_of : Option (Node × String) → Option (Option Expr)
  | some (Node.Leaf l, _) => some l.value
  | _ => none

/-- Whether a metadata payload is the Common variant. -/
def Metadata.isCommonData : Metadata → Bool
  | .Common _ => true
  | _ => false

/-- Membership in the `i64` value range. -/
def inRange64 (x : Int) : Prop := -(2 ^ 63) ≤ x ∧ x < 2 ^ 63

/-- Store with two Leaves referencing each other: `a` (id 1) holds
`Reference(2)`, `b` (id 2) holds `Reference(1)`. -/
def cycT : Template :=
  let t1 := stepT (add_leaf_to Template.new 9 "a" 0 false)
  let t2 := stepT (add_leaf_to t1 9 "b" 0 false)
  let t3 := (set_leaf_expr t2 1 (.Reference 2)).2
  (set_leaf_expr t3 2 (.Reference 1)).2

/-- Store with a single Group `"abilities"` (id 1) under the root. -/
def abilitiesT : Template := stepT (add_group_to Template.new 9 "abilities" 0)

/-- `abilitiesT` plus an Ident meta `"name"` (id 2) attached directly to the
Group `"abilities"`. -/
def identDirectT : Template := stepT (add_meta_to abilitiesT 9 "name" 1 .Ident)

/-- `abilitiesT` plus a Common meta `"mod"` (id 3, inner group id 2) on the
Group `"abilities"`. -/
def commonMetaT : Template := stepT (add_meta_to abilitiesT 9 "mod" 1 .Common)

/-- `commonMetaT` plus an Ident meta `"name"` (id 4) attached to the Common
meta `"mod"`. -/
def identCommonT : Template := stepT (add_meta_to commonMetaT 9 "name" 3 .Ident)

/-- Store where Leaf `b` (id 1) holds `Integer(5)` and Leaf `a` (id 2)
holds `Reference(1)`. -/
def refT : Template :=
  let t1 := stepT (add_leaf_to Template.new 9 "b" 0 false)
  let t2 := (set_leaf_value t1 1 (.Integer 5)).2
  let t3 := stepT (add_leaf_to t2 9 "a" 0 false)
  (set_leaf_expr t3 2 (.Reference 1)).2

/-- Store with Leaf `x` (id 1) holding the literal expression `Integer(1)`. -/
def staleT : Template :=
  let t1 := stepT (add_leaf_to Template.new 9 "x" 0 false)
  (set_leaf_expr t1 1 (.Literal (.Integer 1))).2

/-- `staleT` after evaluating Leaf 1 (so its cache holds `Integer(1)`). -/
def staleT2 : Template := (eval_leaf staleT 10 1).2

/-- `staleT2` after `set_leaf_expr` stores the new literal `Integer(2)`
without touching the cache. -/
def staleT3 : Template := (set_leaf_expr staleT2 1 (.Literal (.Integer 2))).2

/-- Store with a Common meta `m` (id 2, inner group id 1) on the root and a
Leaf `b` (id 3) created through the Common. -/
def skipT : Template :=
  let t1 := stepT (add_meta_to Template.new 9 "m" 0 .Common)
  stepT (add_leaf_to t1 9 "b" 2 false)

/-- Store with Leaf `x` (id 1) holding `InfixOp(Literal a, Literal b, k)`. -/
def arithT (a b : Int) (k : OpKind) : Template :=
  let t1 := stepT (add_leaf_to Template.new 9 "x" 0 false)
  (set_leaf_expr t1 1 (.InfixOp (.Literal (.Integer a)) (.Literal (.Integer b)) k)).2

/-- Changing only the identity counter does not change lookups. -/
lemma find_bump (t : Template) (k : NodeId) (nid : NodeId) :
    (({ t with next_id := k } : Template).find nid) = t.find nid := rfl

/-- Lookup after inserting a different id is unchanged. -/
lemma find_setNode_ne (t : Template) (id nid : NodeId) (v : Node × String)
    (h : nid ≠ id) : (t.setNode id v).find nid = t.find nid := by
  simp [Template.setNode, Template.find, List.findSome?_cons, Ne.symm h]

/-- Lookup of a freshly inserted id yields the inserted value. -/
lemma find_setNode_self (t : Template) (id : NodeId) (v : Node × String) :
    (t.setNode id v).find id = some v := by
  simp [Template.setNode, Template.find, List.findSome?_cons]

/-- Lookups only depend on the node list. -/
lemma find_eq_of_nodes (t1 t2 : Template) (h : t1.nodes = t2.nodes) (nid : NodeId) :
    t1.find nid = t2.find nid := by
  simp [Template.find, h]

/-- The outcome component of `pushOnOk` is the outcome passed in. -/
lemma pushOnOk_fst (id : NodeId) (o : EvalOutcome) (ups : List (NodeId × Value)) :
    (pushOnOk id o ups).1 = o := by
  cases o <;> rfl

/-- The outcome of `eval_leaf` is the outcome of the inner evaluation. -/
lemma eval_leaf_fst (t : Template) (fuel : Nat) (id : NodeId) :
    (eval_leaf t fuel id).1 = (evalLeafInner t fuel id [] []).1 := by
  rcases he : evalLeafInner t fuel id [] [] with ⟨o, ups⟩
  cases o <;> simp [eval_leaf, he]

/-- `pushOnOk` either returns the updates vector unchanged or appends the
single entry for the pushed id together with the ok value. -/
lemma pushOnOk_spec (id : NodeId) (o : EvalOutcome) (ups : List (NodeId × Value)) :
    (pushOnOk id o ups).2 = ups ∨
    ∃ v, (pushOnOk id o ups).1 = .ok v ∧ (pushOnOk id o ups).2 = ups ++ [(id, v)] := by
  cases o <;> simp [pushOnOk]

/-- Key fact behind the caching behavior: one `eval_leaf_inner` call grows
the updates vector by at most its own id's entry — the recursive calls in
`eval_expr_inner` write into fresh discarded vectors. -/
lemma evalLeafInner_ups (t : Template) (fuel : Nat) (id : NodeId)
    (checked : List NodeId) (ups : List (NodeId × Value)) :
    (evalLeafInner t fuel id checked ups).2 = ups ∨
    ∃ v, (evalLeafInner t fuel id checked ups).1 = .ok v ∧
         (evalLeafInner t fuel id checked ups).2 = ups ++ [(id, v)] := by
  match fuel with
  | 0 => left; rfl
  | n+1 =>
    simp only [evalLeafInner]
    split
    · left; rfl
    · split
      · left; rfl
      · split
        · left; rfl
        · split
          · exact pushOnOk_spec _ _ _
          · left; rfl
      · left; rfl
      · split
        · left; rfl
        · split
          · exact pushOnOk_spec _ _ _
          · split
            · left; rfl
            · split
              · exact pushOnOk_spec _ _ _
              · left; rfl
              · left; rfl
              · left; rfl
          · left; rfl
          · left; rfl
          · left; rfl
          · left; rfl
          · left; rfl

/-- A cache write at one id leaves all other lookups unchanged. -/
lemma cacheWrite_find_ne (t : Template) (id nid : NodeId) (v : Value)
    (h : nid ≠ id) : (cacheWrite t id v).find nid = t.find nid := by
  unfold cacheWrite
  split
  · exact find_setNode_ne _ _ _ _ h
  · rfl

/-- A cache write at a Leaf id stores the updated Leaf. -/
lemma cacheWrite_leaf (t : Template) (id : NodeId) (v : Value) (l : Leaf) (nm : String)
    (hf : t.find id = some (.Leaf l, nm)) :
    cacheWrite t id v =
      t.setNode id (.Leaf { l with cached := some v, cache_valid := true }, nm) := by
  simp [cacheWrite, hf]

/-- One step of `eval_leaf_inner` on an uncached Leaf with an expression. -/
lemma evalLeafInner_leaf_expr (t : Template) (n : Nat) (id : NodeId) (l : Leaf) (nm : String)
    (e : Expr) (checked : List NodeId) (ups : List (NodeId × Value))
    (h : t.find id = some (.Leaf l, nm)) (hcv : l.cache_valid = false)
    (hv : l.value = some e) (hc : ¬ id ∈ checked) :
    evalLeafInner t (n+1) id checked ups = pushOnOk id (evalExprInner t n e checked) ups := by
  simp [evalLeafInner, hc, h, hcv, hv]

/-- One step of `eval_expr_inner` on a Reference. -/
lemma evalExprInner_ref (t : Template) (n : Nat) (rid : NodeId) (checked : List NodeId) :
    evalExprInner t (n+1) (.Reference rid) checked = (evalLeafInner t n rid checked []).1 := by
  simp [evalExprInner]

/-- A failing `add_child` leaves the store untouched. -/
lemma add_child_err (t : Template) (p id : NodeId) (e : AddNodeError) (t' : Template)
    (h : add_child t p id = (.error e, t')) : t' = t := by
  unfold add_child at h
  repeat' split at h
  all_goals simp_all

/-- In-range integers are fixed points of the wrap-around. -/
lemma wrap64_eq (x : Int) (h : inRange64 x) : wrap64 x = x := by
  unfold wrap64
  obtain ⟨h1, h2⟩ := h
  omega

/-- Truncating division overflows exactly at `i64::MIN / -1`. -/
lemma tdiv_min_neg_one : Int.tdiv (-(2 ^ 63)) (-1) = 2 ^ 63 := by decide

/-- The Leaf `a` of the cyclic store. -/
lemma cycT_find1 : cycT.find 1 = some (.Leaf
    { id := 1, value_kind := .Undefined, value := some (.Reference 2), cached := none,
      cache_valid := false, deferred := false, parent := some 0,
      metadata := [], dependencies := [], dependents := [] }, "a") := rfl

/-- The Leaf `b` of the cyclic store. -/
lemma cycT_find2 : cycT.find 2 = some (.Leaf
    { id := 2, value_kind := .Undefined, value := some (.Reference 1), cached := none,
      cache_valid := false, deferred := false, parent := some 0,
      metadata := [], dependencies := [], dependents := [] }, "b") := rfl

/-- Two evaluator steps turn the evaluation of `a` into the evaluation of
`b` with the same (empty, never-pushed) visited vector. -/
lemma cyc_step1 (n : Nat) :
    (evalLeafInner cycT (n+2) 1 [] []).1 = (evalLeafInner cycT n 2 [] []).1 := by
  rw [show n+2 = (n+1)+1 from rfl,
      evalLeafInner_leaf_expr cycT (n+1) 1 _ _ (.Reference 2) [] [] cycT_find1 rfl rfl (by simp),
      pushOnOk_fst, evalExprInner_ref]

/-- Two evaluator steps turn the evaluation of `b` into the evaluation of
`a` with the same (empty, never-pushed) visited vector. -/
lemma cyc_step2 (n : Nat) :
    (evalLeafInner cycT (n+2) 2 [] []).1 = (evalLeafInner cycT n 1 [] []).1 := by
  rw [show n+2 = (n+1)+1 from rfl,
      evalLeafInner_leaf_expr cycT (n+1) 2 _ _ (.Reference 1) [] [] cycT_find2 rfl rfl (by simp),
      pushOnOk_fst, evalExprInner_ref]

/-- The inner evaluation of either cyclic Leaf exhausts any amount of fuel:
the Rust recursion never returns. -/
lemma cyc_all (n : Nat) :
    ((evalLeafInner cycT n 1 [] []).1 = .fuelOut ∧ (evalLeafInner cycT n 2 [] []).1 = .fuelOut) ∧
    ((evalLeafInner cycT (n+1) 1 [] []).1 = .fuelOut ∧
     (evalLeafInner cycT (n+1) 2 [] []).1 = .fuelOut) := by
  induction n with
  | zero => exact ⟨⟨rfl, rfl⟩, ⟨rfl, rfl⟩⟩
  | succ m ih =>
    exact ⟨ih.2, ⟨by rw [cyc_step1]; exact ih.1.2, by rw [cyc_step2]; exact ih.1.1⟩⟩

/-- The Ident meta attached directly to the Group `"abilities"` stores its
own id (2) as its parent. -/
lemma identDirectT_find2 : identDirectT.find 2 = some (.Meta
    { id := 2, parent := 2, data := .Ident, cached := none, cache_valid := false }, "name") := rfl

/-- The parent walk from the self-referential Ident meta loops forever. -/
lemma identWalk_self (n : Nat) :
    identWalk identDirectT n
      (.Meta { id := 2, parent := 2, data := .Ident, cached := none, cache_valid := false },
       "name") = .fuelOut := by
  induction n with
  | zero => rfl
  | succ m ih =>
    rw [show identWalk identDirectT (m+1)
        (.Meta { id := 2, parent := 2, data := .Ident, cached := none, cache_valid := false },
         "name") =
        identWalk identDirectT m
        (.Meta { id := 2, parent := 2, data := .Ident, cached := none, cache_valid := false },
         "name") from by
      simp [identWalk, identDirectT_find2]]
    exact ih

/-- The inner evaluation of the directly attached Ident meta exhausts any
amount of fuel. -/
lemma identDirect_inner (fuel : Nat) :
    (evalLeafInner identDirectT fuel 2 [] []).1 = .fuelOut := by
  match fuel with
  | 0 => rfl
  | 1 => rfl
  | n+2 =>
    have h : evalLeafInner identDirectT (n+2) 2 [] [] =
        (match identWalk identDirectT (n+1)
            (.Meta { id := 2, parent := 2, data := .Ident, cached := none, cache_valid := false },
             "name") with
         | .found nm => pushOnOk 2 (.ok (.String nm)) []
         | .err e => (.err e, [])
         | .panic => (.panic, [])
         | .fuelOut => (.fuelOut, [])) := by
      simp [evalLeafInner, identDirectT_find2, evalMetaInner]
      try rfl
    rw [h, identWalk_self]

/-- A failing `add_leaf_to` leaves every lookup unchanged (only the
identity counter may have advanced). -/
lemma add_leaf_to_err (t : Template) (fuel : Nat) (name : String) (parent : NodeId)
    (d : Bool) (e : AddNodeError) (t' : Template)
    (h : add_leaf_to t fuel name parent d = some (.error e, t')) :
    ∀ nid, t'.find nid = t.find nid := by
  intro nid
  unfold add_leaf_to at h
  split at h
  · exact absurd h (by simp)
  · simp at h
    rw [h.2]
  · split at h
    · simp at h
      rw [h.2]
    · simp only [new_id] at h
      split at h
      · rename_i e2 t2 heq
        simp at h
        rw [h.2] at heq
        rw [add_child_err _ _ _ _ _ heq]
        exact (find_bump t _ nid)
      · simp at h

/-- A failing `add_group_to` leaves every lookup unchanged. -/
lemma add_group_to_err (t : Template) (fuel : Nat) (name : String) (parent : NodeId)
    (e : AddNodeError) (t' : Template)
    (h : add_group_to t fuel name parent = some (.error e, t')) :
    ∀ nid, t'.find nid = t.find nid := by
  intro nid
  unfold add_group_to at h
  split at h
  · exact absurd h (by simp)
  · simp at h
    rw [h.2]
  · split at h
    · simp at h
      rw [h.2]
    · simp only [new_id] at h
      split at h
      · rename_i e2 t2 heq
        simp at h
        rw [h.2] at heq
        rw [add_child_err _ _ _ _ _ heq]
        exact (find_bump t _ nid)
      · simp at h

/-- A failing `add_meta_post` leaves every lookup unchanged. -/
lemma add_meta_post_err (t1 : Template) (name : String) (parent : NodeId)
    (data : Metadata) (iG : Option Group) (e : AddNodeError) (t' : Template)
    (h : add_meta_post t1 name parent data iG = some (.error e, t')) :
    ∀ nid, t'.find nid = t1.find nid := by
  intro nid
  unfold add_meta_post at h
  simp only [new_id, add_meta_finish] at h
  repeat' split at h
  all_goals simp at h
  all_goals simp [← h.2, Template.find]

/-- A successful `add_meta_start` does not change the node list. -/
lemma add_meta_start_nodes (t t1 : Template) (parent : NodeId)
    (start : MetadataStart) (data : Metadata) (iG : Option Group)
    (h : add_meta_start t parent start = .ok ((data, iG), t1)) :
    t1.nodes = t.nodes := by
  unfold add_meta_start at h
  simp only [new_id] at h
  repeat' split at h
  all_goals simp at h
  all_goals simp [← h.2, Template.find]

/-- The synthetic inner group allocated by `add_meta_start` never collides
with the id the meta itself will receive. -/
lemma add_meta_start_ig (t t1 : Template) (parent : NodeId)
    (start : MetadataStart) (data : Metadata) (iG : Option Group)
    (h : add_meta_start t parent start = .ok ((data, iG), t1)) :
    ∀ ig, iG = some ig → ig.id ≠ t1.next_id := by
  intro ig hig
  unfold add_meta_start at h
  simp only [new_id] at h
  repeat' split at h
  all_goals simp at h
  · obtain ⟨⟨h1, h2⟩, h3⟩ := h
    rw [hig] at h2
    simp at h2
    rw [← h2, ← h3]
    simp
  all_goals (obtain ⟨⟨h1, h2⟩, h3⟩ := h; rw [hig] at h2; simp at h2)

/-- A failing `add_meta_to` leaves every lookup unchanged. -/
lemma add_meta_to_err (t : Template) (fuel : Nat) (name : String) (parent : NodeId)
    (start : MetadataStart) (e : AddNodeError) (t' : Template)
    (h : add_meta_to t fuel name parent start = some (.error e, t')) :
    ∀ nid, t'.find nid = t.find nid := by
  intro nid
  unfold add_meta_to at h
  split at h
  · exact absurd h (by simp)
  · simp at h
    rw [h.2]
  · split at h
    · simp at h
      rw [h.2]
    · split at h
      · simp at h
        rw [h.2]
      · rename_i p2 data iG t1 heq
        rw [add_meta_post_err _ _ _ _ _ _ _ h nid]
        exact find_eq_of_nodes _ _ (add_meta_start_nodes _ _ _ _ _ _ heq) nid

/-- A successful `add_meta_post` under a Group parent stores the meta with
its own fresh id in the `parent` field. -/
lemma add_meta_post_ok_group (t1 : Template) (name : String) (parent : NodeId)
    (data : Metadata) (iG : Option Group) (mid : NodeId) (t' : Template)
    (g : Group) (nm : String)
    (hf : t1.find parent = some (.Group g, nm))
    (hig : ∀ ig, iG = some ig → ig.id ≠ t1.next_id)
    (h : add_meta_post t1 name parent data iG = some (.ok mid, t')) :
    mid = t1.next_id ∧
    t'.find mid = some (.Meta { id := mid, parent := mid, data := data,
                                cached := none, cache_valid := false }, name) := by
  unfold add_meta_post at h
  simp only [new_id, add_meta_finish, find_bump, hf] at h
  rcases iG with _ | ig
  · simp at h
    obtain ⟨h1, h2⟩ := h
    subst h1
    exact ⟨rfl, by rw [← h2]; exact find_setNode_self _ _ _⟩
  · simp at h
    obtain ⟨h1, h2⟩ := h
    subst h1
    refine ⟨rfl, ?_⟩
    rw [← h2, find_setNode_ne _ _ _ _ (hig ig rfl).symm]
    exact find_setNode_self _ _ _

/-- A successful `add_meta_post` under a Leaf parent stores the meta with
its own fresh id in the `parent` field. -/
lemma add_meta_post_ok_leaf (t1 : Template) (name : String) (parent : NodeId)
    (data : Metadata) (iG : Option Group) (mid : NodeId) (t' : Template)
    (l : Leaf) (nm : String)
    (hf : t1.find parent = some (.Leaf l, nm))
    (hig : ∀ ig, iG = some ig → ig.id ≠ t1.next_id)
    (h : add_meta_post t1 name parent data iG = some (.ok mid, t')) :
    mid = t1.next_id ∧
    t'.find mid = some (.Meta { id := mid, parent := mid, data := data,
                                cached := none, cache_valid := false }, name) := by
  unfold add_meta_post at h
  simp only [new_id, add_meta_finish, find_bump, hf] at h
  rcases iG with _ | ig
  · simp at h
    obtain ⟨h1, h2⟩ := h
    subst h1
    exact ⟨rfl, by rw [← h2]; exact find_setNode_self _ _ _⟩
  · simp at h
    obtain ⟨h1, h2⟩ := h
    subst h1
    refine ⟨rfl, ?_⟩
    rw [← h2, find_setNode_ne _ _ _ _ (hig ig rfl).symm]
    exact find_setNode_self _ _ _

/-- A successful `add_meta_post` under a Common meta parent stores the
inner-group id in the `parent` field. -/
lemma add_meta_post_ok_common (t1 : Template) (name : String) (parent : NodeId)
    (data : Metadata) (iG : Option Group) (mid : NodeId) (t' : Template)
    (pm : Meta) (nm : String) (gid : NodeId)
    (hf : t1.find parent = some (.Meta pm, nm)) (hd : pm.data = .Common gid)
    (hig : ∀ ig, iG = some ig → ig.id ≠ t1.next_id)
    (h : add_meta_post t1 name parent data iG = some (.ok mid, t')) :
    mid = t1.next_id ∧
    t'.find mid = some (.Meta { id := mid, parent := gid, data := data,
                                cached := none, cache_valid := false }, name) := by
  unfold add_meta_post at h
  simp only [new_id, add_meta_finish, find_bump, hf, hd] at h
  rcases hg : t1.find gid with _ | ⟨n2, nm2⟩
  · rw [hg] at h
    simp at h
  · match n2 with
    | .Leaf l2 =>
      rw [hg] at h
      simp at h
    | .Meta m2 =>
      rw [hg] at h
      simp at h
    | .Group g2 =>
      rw [hg] at h
      rcases iG with _ | ig
      · simp at h
        obtain ⟨h1, h2⟩ := h
        subst h1
        exact ⟨rfl, by rw [← h2]; exact find_setNode_self _ _ _⟩
      · simp at h
        obtain ⟨h1, h2⟩ := h
        subst h1
        refine ⟨rfl, ?_⟩
        rw [← h2, find_setNode_ne _ _ _ _ (hig ig rfl).symm]
        exact find_setNode_self _ _ _

/-- C1: the claim says a Reference cycle between two Leaves fails with
`InfiniteRecursion` because revisited identities are detected through the
per-call visited set.  In the code nothing is ever pushed onto the
`checked` vector, so on the two-Leaf cycle the evaluation of either Leaf
exhausts every fuel bound — the Rust recursion never returns at all, with
`InfiniteRecursion` unreachable. -/
theorem c1_reference_cycle_diverges :
    ∀ fuel : Nat, (eval_leaf cycT fuel 1).1 = .fuelOut ∧
      (eval_leaf cycT fuel 2).1 = .fuelOut := by
  intro fuel
  rw [eval_leaf_fst, eval_leaf_fst]
  exact (cyc_all fuel).1

/-- C2: the claim says an Ident meta attached directly to the Group
`"abilities"`, or attached through a Common wrapper on it, evaluates to
`String("abilities")`.  The directly attached Ident meta (id 2 in
`identDirectT`) stores its own id as its parent, so its parent walk loops
forever and evaluation exhausts every fuel bound; the Common-wrapped Ident
meta (id 4 in `identCommonT`) does return `String("abilities")`. -/
theorem c2_ident_meta_behavior :
    (∀ fuel : Nat, (eval_leaf identDirectT fuel 2).1 = .fuelOut) ∧
    (eval_leaf identCommonT 40 4).1 = .ok (.String "abilities") := by
  constructor
  · intro fuel
    rw [eval_leaf_fst]
    exact identDirect_inner fuel
  · rfl

/-- C3 counterexample: evaluating Leaf `a` (id 2) of `refT` traverses the
intermediate Leaf `b` (id 1) and succeeds with `Integer(5)`, yet the cache
of `b` remains invalid afterward — contradicting the claim that every
intermediate node traversed is cached. -/
theorem c3_counterexample :
    (eval_leaf refT 20 2).1 = .ok (.Integer 5) ∧
    cache_valid_of (((eval_leaf refT 20 2).2).find 1) = some false := ⟨rfl, rfl⟩

/-- C3 amended: after a successful `eval_leaf id` the result is written
into the cache of the requested node when that node is a Leaf, and no
other node's stored entry changes — intermediate nodes traversed during
the call are not cached (the recursive `eval_expr_inner` calls pass fresh,
discarded updates vectors). -/
theorem c3_amended :
    (∀ (t : Template) (fuel : Nat) (id nid : NodeId), nid ≠ id →
      ((eval_leaf t fuel id).2).find nid = t.find nid) ∧
    (∀ (t : Template) (fuel : Nat) (id : NodeId) (v : Value) (l : Leaf) (nm : String),
      t.find id = some (.Leaf l, nm) →
      (eval_leaf t fuel id).1 = .ok v →
      ((eval_leaf t fuel id).2).find id =
        some (.Leaf { l with cached := some v, cache_valid := true }, nm)) := by
  constructor
  · intro t fuel id nid h
    have hu := evalLeafInner_ups t fuel id [] []
    rcases he : evalLeafInner t fuel id [] [] with ⟨o, ups⟩
    rw [he] at hu
    cases o with
    | ok v =>
      have hups : ups = [] ∨ ups = [(id, v)] := by
        rcases hu with h1 | ⟨v', hv1, hv2⟩
        · exact Or.inl h1
        · simp at hv1 hv2
          cases hv1
          exact Or.inr hv2
      simp only [eval_leaf, he]
      rcases hups with rfl | rfl
      · exact cacheWrite_find_ne t id nid v h
      · simp only [List.foldl]
        rw [cacheWrite_find_ne _ _ _ _ h, cacheWrite_find_ne _ _ _ _ h]
    | err e => simp [eval_leaf, he]
    | panic => simp [eval_leaf, he]
    | fuelOut => simp [eval_leaf, he]
  · intro t fuel id v l nm hf hv
    have hu := evalLeafInner_ups t fuel id [] []
    rcases he : evalLeafInner t fuel id [] [] with ⟨o, ups⟩
    rw [he] at hu
    cases o with
    | ok v0 =>
      have hv0 : v0 = v := by
        simp [eval_leaf, he] at hv
        exact hv
      subst hv0
      have hups : ups = [] ∨ ups = [(id, v0)] := by
        rcases hu with h1 | ⟨v', hv1, hv2⟩
        · exact Or.inl h1
        · simp at hv1 hv2
          cases hv1
          exact Or.inr hv2
      simp only [eval_leaf, he]
      rcases hups with rfl | rfl
      · simp only [List.foldl_nil]
        rw [cacheWrite_leaf t id v0 l nm hf]
        exact find_setNode_self _ _ _
      · simp only [List.foldl_cons, List.foldl_nil]
        rw [cacheWrite_leaf t id v0 l nm hf]
        have h1 : (t.setNode id (.Leaf { l with cached := some v0, cache_valid := true },
            nm)).find id = some (.Leaf { l with cached := some v0, cache_valid := true }, nm) :=
          find_setNode_self _ _ _
        rw [cacheWrite_leaf _ id v0 _ nm h1]
        exact find_setNode_self _ _ _
    | err e => simp [eval_leaf, he] at hv
    | panic => simp [eval_leaf, he] at hv
    | fuelOut => simp [eval_leaf, he] at hv

/-- C3 witness: the amended theorem applied to `refT` at concrete inputs —
the frame part at the intermediate node 1 and the cache-write part at the
requested node 2. -/
theorem c3_amended_witness :
    ((eval_leaf refT 20 2).2).find 1 = refT.find 1 ∧
    ((eval_leaf refT 20 2).2).find 2 = some (.Leaf
      { id := 2, value_kind := .Integer, value := some (.Reference 1), cached := some (.Integer 5),
        cache_valid := true, deferred := false, parent := some 0,
        metadata := [], dependencies := [], dependents := [] }, "a") :=
  ⟨c3_amended.1 refT 20 2 1 (by decide),
   c3_amended.2 refT 20 2 (.Integer 5)
     { id := 2, value_kind := .Integer, value := some (.Reference 1), cached := none,
       cache_valid := false, deferred := false, parent := some 0,
       metadata := [], dependencies := [], dependents := [] } "a" rfl rfl⟩

/-- C4: `set_leaf_expr` and `set_leaf_value` leave the Leaf's `cached`
value and `cache_valid` flag unchanged, and consequently re-evaluating an
already-evaluated Leaf after `set_leaf_expr` returns the stale cached
value (`Integer(1)`) even though the stored expression is the new literal
`Integer(2)`. -/
theorem c4_set_ops_preserve_cache :
    (∀ (t : Template) (id : NodeId) (e : Expr),
      cached_of (((set_leaf_expr t id e).2).find id) = cached_of (t.find id) ∧
      cache_valid_of (((set_leaf_expr t id e).2).find id) = cache_valid_of (t.find id)) ∧
    (∀ (t : Template) (id : NodeId) (v : Value),
      cached_of (((set_leaf_value t id v).2).find id) = cached_of (t.find id) ∧
      cache_valid_of (((set_leaf_value t id v).2).find id) = cache_valid_of (t.find id)) ∧
    (eval_leaf staleT 10 1).1 = .ok (.Integer 1) ∧
    (eval_leaf staleT3 10 1).1 = .ok (.Integer 1) ∧
    value_of (staleT3.find 1) = some (some (.Literal (.Integer 2))) := by
  refine ⟨?_, ?_, rfl, rfl, rfl⟩
  · intro t id e
    unfold set_leaf_expr
    rcases hf : t.find id with _ | ⟨n, nm⟩
    · simp [hf]
    · match n with
      | .Leaf l => simp [hf, find_setNode_self, cached_of, cache_valid_of]
      | .Group g => simp [hf]
      | .Meta m => simp [hf]
  · intro t id v
    unfold set_leaf_value
    rcases hf : t.find id with _ | ⟨n, nm⟩
    · simp [hf]
    · match n with
      | .Leaf l => simp [hf, find_setNode_self, cached_of, cache_valid_of]
      | .Group g => simp [hf]
      | .Meta m => simp [hf]

/-- C5 counterexample: `add_leaf_to` with the unknown parent 99 fails with
`ParentNotExists`, yet the identity counter of the returned store has
advanced from 1 to 2 — the store is not exactly as it was before the
call. -/
theorem c5_counterexample :
    (add_leaf_to Template.new 9 "x" 99 false).map (fun p => (p.1, p.2.next_id)) =
      some (.error .ParentNotExists, 2) ∧
    Template.new.next_id = 1 := ⟨rfl, rfl⟩

/-- C5 amended: every failing add operation leaves the node map unchanged
(every lookup is as before); only the identity counter may have advanced,
because `new_id` runs before the parent link is attempted. -/
theorem c5_amended :
    (∀ (t : Template) (fuel : Nat) (name : String) (parent : NodeId) (d : Bool)
       (e : AddNodeError) (t' : Template),
       add_leaf_to t fuel name parent d = some (.error e, t') →
       ∀ nid, t'.find nid = t.find nid) ∧
    (∀ (t : Template) (fuel : Nat) (name : String) (parent : NodeId)
       (e : AddNodeError) (t' : Template),
       add_group_to t fuel name parent = some (.error e, t') →
       ∀ nid, t'.find nid = t.find nid) ∧
    (∀ (t : Template) (fuel : Nat) (name : String) (parent : NodeId)
       (start : MetadataStart) (e : AddNodeError) (t' : Template),
       add_meta_to t fuel name parent start = some (.error e, t') →
       ∀ nid, t'.find nid = t.find nid) :=
  ⟨add_leaf_to_err, add_group_to_err, add_meta_to_err⟩

/-- C5 witness: the amended theorem applied to the `ParentNotExists`
failure of the counterexample — lookups in the post-state agree with the
fresh store. -/
theorem c5_amended_witness :
    ({ nodes := Template.new.nodes, next_id := 2 } : Template).find 0 = Template.new.find 0 :=
  c5_amended.1 Template.new 9 "x" 99 false .ParentNotExists _ rfl 0

/-- C6 counterexample: the reserved sentinel name `"[COMMON INNER]"` is
accepted (id 1 allocated) by `add_leaf_to` and by `add_meta_to`; only
`add_group_to` rejects it with `InvalidName`. -/
theorem c6_counterexample :
    (add_leaf_to Template.new 9 "[COMMON INNER]" 0 false).map (fun p => p.1.toOption) =
      some (some 1) ∧
    (add_meta_to Template.new 9 "[COMMON INNER]" 0 .Sum).map (fun p => p.1.toOption) =
      some (some 1) ∧
    (add_group_to Template.new 9 "[COMMON INNER]" 0).map Prod.fst =
      some (.error .InvalidName) := ⟨rfl, rfl, rfl⟩

/-- C6 amended: when the name does not already resolve from the parent
(so the earlier `NameConflict` check does not fire first), a name
containing the separator fails `InvalidName` in all three add operations;
the reserved sentinel name additionally fails `InvalidName` only in
`add_group_to`. -/
theorem c6_amended :
    (∀ (t : Template) (fuel : Nat) (name : String) (parent : NodeId) (d : Bool),
      get_node_from t fuel name parent = some none → verify_name name = false →
      add_leaf_to t fuel name parent d = some (.error .InvalidName, t)) ∧
    (∀ (t : Template) (fuel : Nat) (name : String) (parent : NodeId),
      get_node_from t fuel name parent = some none →
      (verify_name name = false ∨ name = "[COMMON INNER]") →
      add_group_to t fuel name parent = some (.error .InvalidName, t)) ∧
    (∀ (t : Template) (fuel : Nat) (name : String) (parent : NodeId) (start : MetadataStart),
      get_node_from t fuel name parent = some none → verify_name name = false →
      add_meta_to t fuel name parent start = some (.error .InvalidName, t)) := by
  refine ⟨?_, ?_, ?_⟩
  · intro t fuel name parent d hr hn
    simp [add_leaf_to, hr, hn]
  · intro t fuel name parent hr hn
    rcases hn with hn | hn
    · simp [add_group_to, hr, hn]
    · subst hn
      simp [add_group_to, hr]
  · intro t fuel name parent start hr hn
    simp [add_meta_to, hr, hn]

/-- C6 witness: the amended theorem applied to the fresh store — the
dotted name `"a.b"` fails `InvalidName` in all three operations, and the
sentinel name fails `InvalidName` in `add_group_to`. -/
theorem c6_amended_witness :
    add_leaf_to Template.new 9 "a.b" 0 false = some (.error .InvalidName, Template.new) ∧
    add_group_to Template.new 9 "a.b" 0 = some (.error .InvalidName, Template.new) ∧
    add_group_to Template.new 9 "[COMMON INNER]" 0 = some (.error .InvalidName, Template.new) ∧
    add_meta_to Template.new 9 "a.b" 0 .Sum = some (.error .InvalidName, Template.new) :=
  ⟨c6_amended.1 Template.new 9 "a.b" 0 false rfl rfl,
   c6_amended.2.1 Template.new 9 "a.b" 0 rfl (Or.inl rfl),
   c6_amended.2.1 Template.new 9 "[COMMON INNER]" 0 rfl (Or.inr rfl),
   c6_amended.2.2 Template.new 9 "a.b" 0 .Sum rfl rfl⟩

/-- C7 counterexample: in `skipT` (Common meta `m`, id 2, with Leaf `b`,
id 3, inside its inner group) the path `"m.junk.b"` resolves to the Leaf
`b` even though no node named `"junk"` exists anywhere — descending
through the Common meta silently dropped the non-final segment, so the
delegation does consume a path segment. -/
theorem c7_counterexample :
    get_node_from skipT 9 "m.junk.b" 0 = some (some 3) ∧
    get_node_from skipT 9 "m.junk" 0 = some none ∧
    get_node_from skipT 9 "junk" 0 = some none := ⟨rfl, rfl, rfl⟩

/-- C7 amended: when resolution reaches a Common meta it delegates into
the synthetic inner Group, but with the path as rebound by `split_once` —
the whole remaining path only when it is a single segment, and the
remainder after dropping the first segment otherwise; every other Meta
kind is a dead end; from a Group, a matched non-final segment recurses
into the matched identity with exactly the remaining path. -/
theorem c7_amended :
    (∀ (t : Template) (fuel : Nat) (p : String) (pid : NodeId) (m : Meta) (nm : String)
       (inner : NodeId) (name rest : String),
       t.find pid = some (.Meta m, nm) → m.data = .Common inner →
       splitOnce p = some (name, rest) →
       get_node_from t (fuel+1) p pid = get_node_from t fuel rest inner) ∧
    (∀ (t : Template) (fuel : Nat) (p : String) (pid : NodeId) (m : Meta) (nm : String)
       (inner : NodeId),
       t.find pid = some (.Meta m, nm) → m.data = .Common inner →
       splitOnce p = none →
       get_node_from t (fuel+1) p pid = get_node_from t fuel p inner) ∧
    (∀ (t : Template) (fuel : Nat) (p : String) (pid : NodeId) (m : Meta) (nm : String),
       t.find pid = some (.Meta m, nm) → m.data.isCommonData = false →
       get_node_from t (fuel+1) p pid = some none) ∧
    (∀ (t : Template) (fuel : Nat) (p : String) (pid : NodeId) (g : Group) (nm : String)
       (name rest : String) (id0 : NodeId),
       t.find pid = some (.Group g, nm) → splitOnce p = some (name, rest) →
       findChild t (g.children ++ g.metadata) name = some id0 →
       get_node_from t (fuel+1) p pid = get_node_from t fuel rest id0) := by
  refine ⟨?_, ?_, ?_, ?_⟩
  · intro t fuel p pid m nm inner name rest hf hd hs
    simp [get_node_from, hf, hd, hs]
  · intro t fuel p pid m nm inner hf hd hs
    simp [get_node_from, hf, hd, hs]
  · intro t fuel p pid m nm hf hd
    rcases hm : m.data with inner | _ | _ | _ | _
    · rw [hm] at hd
      simp [Metadata.isCommonData] at hd
    all_goals simp [get_node_from, hf, hm]
  · intro t fuel p pid g nm name rest id0 hf hs hc
    simp [get_node_from, hf, hs, hc]

/-- C7 witness: the amended theorem applied at concrete stores — the
segment-dropping delegation, the single-segment delegation, the dead end
at a non-Common meta, and the Group recursion step. -/
theorem c7_amended_witness :
    get_node_from skipT 9 "junk.b" 2 = get_node_from skipT 8 "b" 1 ∧
    get_node_from skipT 9 "b" 2 = get_node_from skipT 8 "b" 1 ∧
    get_node_from identCommonT 9 "z" 4 = some none ∧
    get_node_from skipT 9 "m.b" 0 = get_node_from skipT 8 "b" 2 :=
  ⟨c7_amended.1 skipT 8 "junk.b" 2
     { id := 2, parent := 2, data := .Common 1, cached := none, cache_valid := false }
     "m" 1 "junk" "b" rfl rfl rfl,
   c7_amended.2.1 skipT 8 "b" 2
     { id := 2, parent := 2, data := .Common 1, cached := none, cache_valid := false }
     "m" 1 rfl rfl rfl,
   c7_amended.2.2.1 identCommonT 8 "z" 4
     { id := 4, parent := 2, data := .Ident, cached := none, cache_valid := false }
     "name" rfl rfl,
   c7_amended.2.2.2 skipT 8 "m.b" 0
     { id := 0, children := [], parent := none, metadata := [2], common := none }
     "[THE MOTHER]" "m" "b" 2 rfl rfl rfl⟩

/-- C8: on a Leaf holding `InfixOp(Literal a, Literal b, k)` the evaluator
returns `Integer(a+b)` for Add, `Integer(a-b)` for Sub, `Integer(a*b)` for
Mul, and for Div with nonzero divisor the quotient truncated toward zero —
for all operands and results inside the 64-bit signed range (the claim's
"arithmetic is 64-bit signed"). -/
theorem c8_infix_arithmetic (a b : Int) (ha : inRange64 a) (hb : inRange64 b) :
    (inRange64 (a + b) → (eval_leaf (arithT a b .Add) 10 1).1 = .ok (.Integer (a + b))) ∧
    (inRange64 (a - b) → (eval_leaf (arithT a b .Sub) 10 1).1 = .ok (.Integer (a - b))) ∧
    (inRange64 (a * b) → (eval_leaf (arithT a b .Mul) 10 1).1 = .ok (.Integer (a * b))) ∧
    (b ≠ 0 → inRange64 (Int.tdiv a b) →
      (eval_leaf (arithT a b .Div) 10 1).1 = .ok (.Integer (Int.tdiv a b))) := by
  refine ⟨fun h => ?_, fun h => ?_, fun h => ?_, fun hb0 h => ?_⟩
  · rw [show (eval_leaf (arithT a b .Add) 10 1).1 = .ok (.Integer (wrap64 (a + b))) from rfl,
        wrap64_eq _ h]
  · rw [show (eval_leaf (arithT a b .Sub) 10 1).1 = .ok (.Integer (wrap64 (a - b))) from rfl,
        wrap64_eq _ h]
  · rw [show (eval_leaf (arithT a b .Mul) 10 1).1 = .ok (.Integer (wrap64 (a * b))) from rfl,
        wrap64_eq _ h]
  · have hmin : ¬(a = -(2 ^ 63) ∧ b = -1) := by
      rintro ⟨rfl, rfl⟩
      rw [tdiv_min_neg_one] at h
      exact absurd h.2 (by norm_num)
    rw [eval_leaf_fst,
        show (evalLeafInner (arithT a b .Div) 10 1 [] []).1 =
        (pushOnOk 1 (if b = 0 then .panic
         else if a = -(2 ^ 63) ∧ b = -1 then .panic
         else .ok (.Integer (Int.tdiv a b))) []).1 from rfl,
        pushOnOk_fst, if_neg hb0, if_neg hmin]

/-- C8 witness: the theorem at `a = -7`, `b = 2`; Div shows the truncation
toward zero (`-7 / 2 = -3`). -/
theorem c8_infix_arithmetic_witness :
    (eval_leaf (arithT (-7) 2 .Add) 10 1).1 = .ok (.Integer (-5)) ∧
    (eval_leaf (arithT (-7) 2 .Sub) 10 1).1 = .ok (.Integer (-9)) ∧
    (eval_leaf (arithT (-7) 2 .Mul) 10 1).1 = .ok (.Integer (-14)) ∧
    (eval_leaf (arithT (-7) 2 .Div) 10 1).1 = .ok (.Integer (-3)) := by
  have h := c8_infix_arithmetic (-7) 2 (by constructor <;> decide) (by constructor <;> decide)
  refine ⟨h.1 (by constructor <;> decide), h.2.1 (by constructor <;> decide),
          h.2.2.1 (by constructor <;> decide), ?_⟩
  have hd := h.2.2.2 (by decide) (by constructor <;> decide)
  rw [hd]
  rfl

/-- C9: an `InfixOp` of kind Div whose operands evaluate to Integers with
the right operand `Integer(0)` panics (the division is unguarded), and an
`InfixOp` of kind Neg panics through the `unreachable!` branch — neither
returns a `Value` or an `EvalError`. -/
theorem c9_div_by_zero_and_neg_panic :
    (∀ (t : Template) (fuel : Nat) (lhs rhs : Expr) (a : Int),
      evalExprInner t fuel lhs [] = .ok (.Integer a) →
      evalExprInner t fuel rhs [] = .ok (.Integer 0) →
      infixEval t (fuel+1) lhs rhs .Div = .panic) ∧
    (∀ (t : Template) (fuel : Nat) (lhs rhs : Expr),
      infixEval t (fuel+1) lhs rhs .Neg = .panic) := by
  constructor
  · intro t fuel lhs rhs a h1 h2
    simp [infixEval, h1, h2]
  · intro t fuel lhs rhs
    simp [infixEval]

/-- C9 witness: the theorem applied to literal operands `1 / 0` (and the
Neg branch) in the fresh store. -/
theorem c9_div_by_zero_and_neg_panic_witness :
    infixEval Template.new 2 (.Literal (.Integer 1)) (.Literal (.Integer 0)) .Div = .panic ∧
    infixEval Template.new 2 (.Literal (.Integer 7)) (.Literal (.Integer 8)) .Neg = .panic :=
  ⟨c9_div_by_zero_and_neg_panic.1 Template.new 1 (.Literal (.Integer 1))
     (.Literal (.Integer 0)) 1 rfl rfl,
   c9_div_by_zero_and_neg_panic.2 Template.new 1 (.Literal (.Integer 7)) (.Literal (.Integer 8))⟩

/-- C10: a Meta created by `add_meta_to` under a Group or Leaf parent
stores its own fresh id in its `parent` field (a self-reference); only
under a Common meta parent does the `parent` field hold the Common's
synthetic inner-group id. -/
theorem c10_meta_parent_field :
    (∀ (t : Template) (fuel : Nat) (name : String) (pid : NodeId)
       (start : MetadataStart) (g : Group) (nm : String)
       (mid : NodeId) (t' : Template),
       t.find pid = some (.Group g, nm) →
       add_meta_to t fuel name pid start = some (.ok mid, t') →
       ∃ mt : Meta, t'.find mid = some (.Meta mt, name) ∧ mt.parent = mid) ∧
    (∀ (t : Template) (fuel : Nat) (name : String) (pid : NodeId)
       (start : MetadataStart) (l : Leaf) (nm : String)
       (mid : NodeId) (t' : Template),
       t.find pid = some (.Leaf l, nm) →
       add_meta_to t fuel name pid start = some (.ok mid, t') →
       ∃ mt : Meta, t'.find mid = some (.Meta mt, name) ∧ mt.parent = mid) ∧
    (∀ (t : Template) (fuel : Nat) (name : String) (pid : NodeId)
       (start : MetadataStart) (pm : Meta) (nm : String) (gid : NodeId)
       (mid : NodeId) (t' : Template),
       t.find pid = some (.Meta pm, nm) → pm.data = .Common gid →
       add_meta_to t fuel name pid start = some (.ok mid, t') →
       ∃ mt : Meta, t'.find mid = some (.Meta mt, name) ∧ mt.parent = gid) := by
  refine ⟨?_, ?_, ?_⟩
  · intro t fuel name pid start g nm mid t' hf hok
    unfold add_meta_to at hok
    split at hok
    · exact absurd hok (by simp)
    · exact absurd hok (by simp)
    · split at hok
      · exact absurd hok (by simp)
      · split at hok
        · exact absurd hok (by simp)
        · rename_i p2 data iG t1 heq
          have ht1 := add_meta_start_nodes _ _ _ _ _ _ heq
          have hig := add_meta_start_ig _ _ _ _ _ _ heq
          have hf1 : t1.find pid = some (.Group g, nm) :=
            (find_eq_of_nodes _ _ ht1 pid).trans hf
          obtain ⟨h1, h2⟩ := add_meta_post_ok_group t1 name pid data iG mid t' g nm hf1 hig hok
          exact ⟨_, h2, rfl⟩
  · intro t fuel name pid start l nm mid t' hf hok
    unfold add_meta_to at hok
    split at hok
    · exact absurd hok (by simp)
    · exact absurd hok (by simp)
    · split at hok
      · exact absurd hok (by simp)
      · split at hok
        · exact absurd hok (by simp)
        · rename_i p2 data iG t1 heq
          have ht1 := add_meta_start_nodes _ _ _ _ _ _ heq
          have hig := add_meta_start_ig _ _ _ _ _ _ heq
          have hf1 : t1.find pid = some (.Leaf l, nm) :=
            (find_eq_of_nodes _ _ ht1 pid).trans hf
          obtain ⟨h1, h2⟩ := add_meta_post_ok_leaf t1 name pid data iG mid t' l nm hf1 hig hok
          exact ⟨_, h2, rfl⟩
  · intro t fuel name pid start pm nm gid mid t' hf hd hok
    unfold add_meta_to at hok
    split at hok
    · exact absurd hok (by simp)
    · exact absurd hok (by simp)
    · split at hok
      · exact absurd hok (by simp)
      · split at hok
        · exact absurd hok (by simp)
        · rename_i p2 data iG t1 heq
          have ht1 := add_meta_start_nodes _ _ _ _ _ _ heq
          have hig := add_meta_start_ig _ _ _ _ _ _ heq
          have hf1 : t1.find pid = some (.Meta pm, nm) :=
            (find_eq_of_nodes _ _ ht1 pid).trans hf
          obtain ⟨h1, h2⟩ :=
            add_meta_post_ok_common t1 name pid data iG mid t' pm nm gid hf1 hd hig hok
          exact ⟨_, h2, rfl⟩

/-- C10 witness: the theorem applied to the Ident meta added directly to
the Group `"abilities"` (its stored parent is its own id 2) and to the
Ident meta added to the Common meta `"mod"` (its stored parent is the
inner-group id 2 of the Common). -/
theorem c10_meta_parent_field_witness :
    (∃ mt : Meta, identDirectT.find 2 = some (.Meta mt, "name") ∧ mt.parent = 2) ∧
    (∃ mt : Meta, identCommonT.find 4 = some (.Meta mt, "name") ∧ mt.parent = 2) :=
  ⟨c10_meta_parent_field.1 abilitiesT 9 "name" 1 .Ident
     { id := 1, children := [], parent := some 0, metadata := [], common := none }
     "abilities" 2 identDirectT rfl rfl,
   c10_meta_parent_field.2.2 commonMetaT 9 "name" 3 .Ident
     { id := 3, parent := 3, data := .Common 2, cached := none, cache_valid := false }
     "mod" 2 4 identCommonT rfl rfl rfl⟩

end Peanut
